import Mathlib

/-!
Shallow embedding of `src/elements/dash-radio-group/dash-radio-group.js`.

A `RadioGroup` element owns a flat ordered sequence of child nodes.  Each
child carries the three pieces of state the controller reads or writes:

  * its `role` attribute (the code only distinguishes the value `radio`
    from everything else, so attribute values are modelled by small
    inductive types rather than raw strings);
  * its `aria-checked` attribute (the code only distinguishes the literal
    string `true`; `RadioButton.connectedCallback` initialises it to the
    string `false`);
  * its `tabIndex` (an integer; `0` means focusable, the code writes `-1`
    for all non-focusable children).

A child node is identified by its index in the sequence.  The DOM queries
`querySelector('[aria-checked="true"]')`, `querySelector('[role="radio"]')`
and the sibling walks `previousElementSibling` / `nextElementSibling`
become index searches over the sequence.  The selectors
`[role="radio"]:first-of-type` and `[role="radio"]:last-of-type` are
modelled as the first and last candidate child, matching the intended
usage in which every radio item is a `<dash-radio-button>` element (one
element type), so the first/last radio child is also first/last of its
type.

Side effects (`setAttribute`, `tabIndex` assignment, `focus()`) are
modelled by an explicit event trace so that ordering and multiplicity of
focus-transfer requests can be stated.  The `null` dereference that the
code performs when a DOM query returns no node is modelled by `Option`
(`none` = the handler throws a `TypeError`), and for `connectedCallback`
by `Except`, whose `error` case carries the (unmutated) children.
-/

namespace DashRadioGroup

/-- Value of a `role` attribute: the code only tests for the string
`radio`; every other string is some `otherRole k`. -/
inductive Role where
  | radio : Role
  | otherRole : Nat → Role
  deriving DecidableEq, Repr

/-- Value of an `aria-checked` attribute: the code only tests for the
literal string `true` and writes the strings `true` and `false`; any
other string is some `otherVal k`. -/
inductive AriaChecked where
  | aTrue : AriaChecked
  | aFalse : AriaChecked
  | otherVal : Nat → AriaChecked
  deriving DecidableEq, Repr

/-- One child node of the `RadioGroup`, holding exactly the state the
controller reads and writes.  `none` for an attribute means the attribute
is absent (`getAttribute` returns `null`). -/
structure Node where
  role : Option Role
  ariaChecked : Option AriaChecked
  tabIndex : Int
  deriving DecidableEq, Repr

/-- Default node used for out-of-range reads (never a candidate). -/
def dNode : Node := { role := none, ariaChecked := none, tabIndex := -1 }

/-- Trace of the side effects the controller performs on the host tree:
attribute writes, tabindex writes, and `focus()` calls, each naming the
index of the child it targets. -/
inductive Ev where
  | setChecked : Nat → AriaChecked → Ev
  | setTab : Nat → Int → Ev
  | focus : Nat → Ev
  deriving DecidableEq, Repr

/-- Is this event a focus-transfer request (`node.focus()`)? -/
def isFocusEv : Ev → Bool
  | Ev.focus _ => true
  | _ => false

/-- `node.getAttribute('role') === 'radio'`: the node is a candidate item. -/
def isRadio (n : Node) : Bool := n.role == some Role.radio

/-- The node matches the selector `[aria-checked="true"]`. -/
def isChecked (n : Node) : Bool := n.ariaChecked == some AriaChecked.aTrue

/-- The node is keyboard-focusable under roving tabindex: `tabindex = 0`. -/
def isFocusable (n : Node) : Bool := n.tabIndex == 0

/-- Read the child at index `i` (out-of-range reads give `dNode`). -/
def getIdx : List Node → Nat → Node
  | [], _ => dNode
  | n :: _, 0 => n
  | _ :: t, i + 1 => getIdx t i

/-- Replace the child at index `i` by `f` of it (out of range: no change). -/
def modifyAt : List Node → Nat → (Node → Node) → List Node
  | [], _, _ => []
  | n :: t, 0, f => f n :: t
  | n :: t, i + 1, f => n :: modifyAt t i f

/-- Index of the first child satisfying `p`, in document order:
`querySelector` over the child sequence. -/
def firstIdxWhere (p : Node → Bool) : List Node → Option Nat
  | [] => none
  | n :: t => if p n then some 0 else (firstIdxWhere p t).map (· + 1)

/-- Index of the last child satisfying `p`. -/
def lastIdxWhere (p : Node → Bool) : List Node → Option Nat
  | [] => none
  | n :: t =>
    match lastIdxWhere p t with
    | some i => some (i + 1)
    | none => if p n then some 0 else none

/-- Count of children satisfying `p`. -/
def countBy (p : Node → Bool) : List Node → Nat
  | [] => 0
  | n :: t => (if p n then 1 else 0) + countBy p t

namespace KEYCODE

/-- `KEYCODE.DOWN` from the source. -/
def DOWN : Nat := 40

/-- `KEYCODE.LEFT` from the source. -/
def LEFT : Nat := 37

/-- `KEYCODE.RIGHT` from the source. -/
def RIGHT : Nat := 39

/-- `KEYCODE.SPACE` from the source (listed but never handled). -/
def SPACE : Nat := 32

/-- `KEYCODE.UP` from the source. -/
def UP : Nat := 38

end KEYCODE

/-- `get checkedRadioButton`: `querySelector('[aria-checked="true"]')`,
the first child whose `aria-checked` attribute is the string `true`
(`none` = the query returns `null`). -/
def checkedRadioButton (g : List Node) : Option Nat :=
  firstIdxWhere isChecked g

/-- `get firstRadioButton`: `querySelector('[role="radio"]:first-of-type')`,
the first candidate child (see the homogeneity note in the file header). -/
def firstRadioButton (g : List Node) : Option Nat :=
  firstIdxWhere isRadio g

/-- `get lastRadioButton`: `querySelector('[role="radio"]:last-of-type')`,
the last candidate child (see the homogeneity note in the file header). -/
def lastRadioButton (g : List Node) : Option Nat :=
  lastIdxWhere isRadio g

/-- Walk of `previousElementSibling` starting just before index `i`:
return the nearest earlier index whose node has `role = radio`. -/
def prevAux (g : List Node) : Nat → Option Nat
  | 0 => none
  | j + 1 => if isRadio (getIdx g j) then some j else prevAux g j

/-- `_prevRadioButton(node)`: nearest preceding sibling with role
`radio`, or `none` (the source returns `null`). -/
def _prevRadioButton (g : List Node) (i : Nat) : Option Nat :=
  prevAux g i

/-- `_nextRadioButton(node)`: nearest following sibling with role
`radio`, or `none` (the source returns `null`). -/
def _nextRadioButton (g : List Node) (i : Nat) : Option Nat :=
  (firstIdxWhere isRadio (g.drop (i + 1))).map (fun k => i + 1 + k)

/-- `_uncheckAll` applied to one node of the static
`querySelectorAll('[role="radio"]')` list: `aria-checked` becomes the
string `false` and `tabIndex` becomes `-1`; non-candidates are untouched. -/
def uncheckFn (n : Node) : Node :=
  if isRadio n then { n with ariaChecked := some AriaChecked.aFalse, tabIndex := -1 } else n

/-- Event trace of `_uncheckAll`: for each candidate in order, first the
`aria-checked` write, then the `tabIndex` write (`i` is the index of the
first listed node). -/
def uncheckTraceFrom : List Node → Nat → List Ev
  | [], _ => []
  | n :: t, i =>
    if isRadio n then
      Ev.setChecked i AriaChecked.aFalse :: Ev.setTab i (-1) :: uncheckTraceFrom t (i + 1)
    else
      uncheckTraceFrom t (i + 1)

/-- `_uncheckAll()`: loop over all children with `role = radio`, setting
`aria-checked="false"` and `tabIndex = -1` on each. -/
def _uncheckAll (g : List Node) : List Node × List Ev :=
  (g.map uncheckFn, uncheckTraceFrom g 0)

/-- `_checkNode(node)` on one node: `aria-checked` becomes the string
`true` and `tabIndex` becomes `0`. -/
def checkFn (n : Node) : Node :=
  { n with ariaChecked := some AriaChecked.aTrue, tabIndex := 0 }

/-- `_checkNode(node)`: mark the child at index `i` checked and focusable. -/
def _checkNode (g : List Node) (i : Nat) : List Node × List Ev :=
  (modifyAt g i checkFn, [Ev.setChecked i AriaChecked.aTrue, Ev.setTab i 0])

/-- `_focusNode(node)`: `node.focus()`, a pure side effect. -/
def _focusNode (g : List Node) (i : Nat) : List Node × List Ev :=
  (g, [Ev.focus i])

/-- `_setChecked(node)`: `_uncheckAll()`, then `_checkNode(node)`, then
`_focusNode(node)`; the trace concatenates the three in call order. -/
def _setChecked (g : List Node) (i : Nat) : List Node × List Ev :=
  let u := _uncheckAll g
  let c := _checkNode u.1 i
  let f := _focusNode c.1 i
  (f.1, u.2 ++ c.2 ++ f.2)

/-- The expression `this.checkedRadioButton || this.firstRadioButton`
shared by both keyboard-navigation methods. -/
def currentButton (g : List Node) : Option Nat :=
  match checkedRadioButton g with
  | some c => some c
  | none => firstRadioButton g

/-- `_setCheckedToPrevButton()`: wrap from the first candidate to the
last, otherwise step to the previous candidate.  `none` models the
`TypeError` thrown when `_setChecked` receives `null`. -/
def _setCheckedToPrevButton (g : List Node) : Option (List Node × List Ev) :=
  if currentButton g = firstRadioButton g then
    match lastRadioButton g with
    | some l => some (_setChecked g l)
    | none => none
  else
    match currentButton g with
    | some c =>
      match _prevRadioButton g c with
      | some p => some (_setChecked g p)
      | none => none
    | none => none

/-- `_setCheckedToNextButton()`: wrap from the last candidate to the
first, otherwise step to the next candidate.  `none` models the
`TypeError` thrown when `_setChecked` receives `null`. -/
def _setCheckedToNextButton (g : List Node) : Option (List Node × List Ev) :=
  if currentButton g = lastRadioButton g then
    match firstRadioButton g with
    | some f => some (_setChecked g f)
    | none => none
  else
    match currentButton g with
    | some c =>
      match _nextRadioButton g c with
      | some nx => some (_setChecked g nx)
      | none => none
    | none => none

/-- `_onKeyDown(e)`: `UP`/`LEFT` select the previous button, `DOWN`/`RIGHT`
the next; every other key code falls to the `default` branch, which does
nothing. -/
def _onKeyDown (g : List Node) (keyCode : Nat) : Option (List Node × List Ev) :=
  if keyCode == KEYCODE.UP || keyCode == KEYCODE.LEFT then
    _setCheckedToPrevButton g
  else if keyCode == KEYCODE.DOWN || keyCode == KEYCODE.RIGHT then
    _setCheckedToNextButton g
  else
    some (g, [])

/-- `_onClick(e)`: the handler inspects only `e.target.getAttribute('role')`
on the exact event target (never its ancestors).  `targetRole` is that
attribute and `targetIdx` the target's child index when it is a child of
the group (irrelevant when the role test fails). -/
def _onClick (g : List Node) (targetRole : Option Role) (targetIdx : Nat) :
    List Node × List Ev :=
  if targetRole == some Role.radio then _setChecked g targetIdx else (g, [])

/-- The write `setAttribute('tabindex', 0)` performed on the first radio
button when `connectedCallback` finds no checked child. -/
def tabZeroFn (n : Node) : Node := { n with tabIndex := 0 }

/-- `connectedCallback()` of `RadioGroup`, restricted to the child-flag
mutations (the `role="radiogroup"` attribute on the group element itself
and the listener registration touch no item flags).  If some child has
`aria-checked="true"`, uncheck everything and re-check that child;
otherwise set `tabindex = 0` on the first child with `role = radio` —
when that query returns `null` (for instance on an empty group) the
source dereferences `null` and throws, modelled by `Except.error`
carrying the unmutated children. -/
def connectedCallback (g : List Node) : Except (List Node) (List Node) :=
  match checkedRadioButton g with
  | some i => Except.ok (_checkNode (_uncheckAll g).1 i).1
  | none =>
    match firstIdxWhere isRadio g with
    | some j => Except.ok (modifyAt g j tabZeroFn)
    | none => Except.error g

/-- States reachable from attaching the group `g0`: the state produced by
a successful `connectedCallback`, closed under select operations
(`_setChecked` on any in-range target, the single funnel for keyboard and
click selection). -/
inductive Reachable (g0 : List Node) : List Node → Prop where
  | attach : ∀ s, connectedCallback g0 = Except.ok s → Reachable g0 s
  | step : ∀ s i, Reachable g0 s → i < s.length → Reachable g0 (_setChecked s i).1

/-! ### Concrete inputs used to exercise the theorems -/

/-- A radio button in its default post-`connectedCallback` state:
`role="radio"`, `aria-checked="false"`, `tabindex="-1"`. -/
def rDefault : Node :=
  { role := some Role.radio, ariaChecked := some AriaChecked.aFalse, tabIndex := -1 }

/-- A radio button that is checked and focusable. -/
def rChecked : Node :=
  { role := some Role.radio, ariaChecked := some AriaChecked.aTrue, tabIndex := 0 }

/-- A radio button whose markup carried `tabindex="0"` without being
checked (`RadioButton.connectedCallback` preserves a user-set tabindex). -/
def rStrayTab : Node :=
  { role := some Role.radio, ariaChecked := some AriaChecked.aFalse, tabIndex := 0 }

/-- A non-candidate node: some element without `role="radio"`. -/
def plainNode : Node :=
  { role := some (Role.otherRole 0), ariaChecked := some AriaChecked.aFalse, tabIndex := -1 }

/-- Group refuting the unconditional roving-focus invariant: no item is
checked and the second item starts with a stray `tabindex="0"`. -/
def cexGroup : List Node := [rDefault, rStrayTab]

/-- The state `connectedCallback` produces on `cexGroup`: both items end
up with `tabindex = 0`. -/
def cexAfter : List Node := [rStrayTab, rStrayTab]

/-- Well-initialised three-item group: all radio, none checked, none
focusable. -/
def wGroup3 : List Node := [rDefault, rDefault, rDefault]

/-- The state `connectedCallback` produces on `wGroup3`. -/
def wGroup3After : List Node := [rStrayTab, rDefault, rDefault]

/-- The state `connectedCallback` produces on `[rDefault]`. -/
def wSingleAfter : List Node := [rStrayTab]

/-! ### Basic lemmas about the index helpers -/

theorem length_modifyAt (g : List Node) (i : Nat) (f : Node → Node) :
    (modifyAt g i f).length = g.length := by
  induction g generalizing i with
  | nil => rfl
  | cons n t ih =>
    cases i with
    | zero => rfl
    | succ i => simp [modifyAt, ih]

theorem getIdx_modifyAt_self (g : List Node) (i : Nat) (f : Node → Node)
    (hi : i < g.length) : getIdx (modifyAt g i f) i = f (getIdx g i) := by
  induction g generalizing i with
  | nil => simp at hi
  | cons n t ih =>
    cases i with
    | zero => rfl
    | succ i =>
      simp only [modifyAt, getIdx]
      exact ih i (by simpa using hi)

theorem getIdx_modifyAt_ne (g : List Node) (i j : Nat) (f : Node → Node)
    (hne : j ≠ i) : getIdx (modifyAt g i f) j = getIdx g j := by
  induction g generalizing i j with
  | nil => rfl
  | cons n t ih =>
    cases i with
    | zero =>
      cases j with
      | zero => exact absurd rfl hne
      | succ j => rfl
    | succ i =>
      cases j with
      | zero => rfl
      | succ j =>
        simp only [modifyAt, getIdx]
        exact ih i j (fun h => hne (by omega))

theorem getIdx_map (f : Node → Node) (g : List Node) (j : Nat)
    (hj : j < g.length) : getIdx (g.map f) j = f (getIdx g j) := by
  induction g generalizing j with
  | nil => simp at hj
  | cons n t ih =>
    cases j with
    | zero => rfl
    | succ j =>
      simp only [List.map, getIdx]
      exact ih j (by simpa using hj)

theorem getIdx_mem (g : List Node) (j : Nat) (hj : j < g.length) :
    getIdx g j ∈ g := by
  induction g generalizing j with
  | nil => simp at hj
  | cons n t ih =>
    cases j with
    | zero => exact List.mem_cons_self n t
    | succ j => exact List.mem_cons_of_mem n (ih j (by simpa using hj))

theorem mem_getIdx (g : List Node) (n : Node) (h : n ∈ g) :
    ∃ j, j < g.length ∧ getIdx g j = n := by
  induction g with
  | nil => simp at h
  | cons m t ih =>
    rcases List.mem_cons.mp h with h | h
    · exact ⟨0, by simp, h.symm⟩
    · rcases ih h with ⟨j, hj, hg⟩
      exact ⟨j + 1, by simpa using Nat.succ_lt_succ hj, hg⟩

theorem ext_getIdx (g h : List Node) (hlen : g.length = h.length)
    (hpt : ∀ j, j < g.length → getIdx g j = getIdx h j) : g = h := by
  induction g generalizing h with
  | nil => cases h with
    | nil => rfl
    | cons m t => simp at hlen
  | cons n t ih =>
    cases h with
    | nil => simp at hlen
    | cons m u =>
      have h0 := hpt 0 (by simp)
      have hrest : t = u := by
        refine ih u (by simpa using hlen) ?_
        intro j hj
        exact hpt (j + 1) (by simpa using Nat.succ_lt_succ hj)
      simp only [getIdx] at h0
      rw [h0, hrest]

theorem getIdx_drop (g : List Node) (m k : Nat) :
    getIdx (g.drop m) k = getIdx g (m + k) := by
  induction g generalizing m with
  | nil => simp [getIdx]
  | cons n t ih =>
    cases m with
    | zero => simp [getIdx]
    | succ m =>
      have : m + 1 + k = (m + k) + 1 := by omega
      rw [this]
      simpa [List.drop, getIdx] using ih m

theorem forall_mem_iff_getIdx (p : Node → Bool) (g : List Node) :
    (∀ n ∈ g, p n = true) ↔ ∀ j, j < g.length → p (getIdx g j) = true := by
  constructor
  · intro h j hj
    exact h _ (getIdx_mem g j hj)
  · intro h n hn
    rcases mem_getIdx g n hn with ⟨j, hj, hg⟩
    rw [← hg]
    exact h j hj

theorem firstIdxWhere_some_iff (p : Node → Bool) (g : List Node) (i : Nat) :
    firstIdxWhere p g = some i ↔
      i < g.length ∧ p (getIdx g i) = true ∧ ∀ j, j < i → p (getIdx g j) = false := by
  induction g generalizing i with
  | nil =>
    simp only [firstIdxWhere, List.length_nil]
    constructor
    · intro h; cases h
    · rintro ⟨h, -, -⟩; omega
  | cons n t ih =>
    by_cases hp : p n = true
    · simp only [firstIdxWhere, hp, if_pos]
      constructor
      · intro h
        cases h
        exact ⟨by simp, hp, by intro j hj; omega⟩
      · rintro ⟨-, -, hjs⟩
        cases i with
        | zero => rfl
        | succ i =>
          have := hjs 0 (by omega)
          simp only [getIdx] at this
          rw [hp] at this
          cases this
    · have hp' : p n = false := by
        cases h : p n
        · rfl
        · exact absurd h hp
      simp only [firstIdxWhere, hp', if_neg Bool.false_ne_true, Option.map_eq_some']
      constructor
      · rintro ⟨a, ha, rfl⟩
        rcases (ih a).mp ha with ⟨h1, h2, h3⟩
        refine ⟨by simpa using Nat.succ_lt_succ h1, by simpa [getIdx] using h2, ?_⟩
        intro j hj
        cases j with
        | zero => simpa [getIdx] using hp'
        | succ j => simpa [getIdx] using h3 j (by omega)
      · rintro ⟨h1, h2, h3⟩
        cases i with
        | zero =>
          simp only [getIdx] at h2
          rw [hp'] at h2
          cases h2
        | succ i =>
          refine ⟨i, (ih i).mpr ⟨by simpa using h1, by simpa [getIdx] using h2, ?_⟩, rfl⟩
          intro j hj
          simpa [getIdx] using h3 (j + 1) (by omega)

theorem firstIdxWhere_none_iff (p : Node → Bool) (g : List Node) :
    firstIdxWhere p g = none ↔ ∀ j, j < g.length → p (getIdx g j) = false := by
  induction g with
  | nil =>
    constructor
    · intro _ j hj
      simp at hj
    · intro _
      rfl
  | cons n t ih =>
    by_cases hp : p n = true
    · simp only [firstIdxWhere, hp, if_pos]
      constructor
      · intro h; cases h
      · intro h
        have := h 0 (by simp)
        simp only [getIdx] at this
        rw [hp] at this
        cases this
    · have hp' : p n = false := by
        cases h : p n
        · rfl
        · exact absurd h hp
      simp only [firstIdxWhere, hp', if_neg Bool.false_ne_true, Option.map_eq_none']
      rw [ih]
      constructor
      · intro h j hj
        cases j with
        | zero => simpa [getIdx] using hp'
        | succ j => simpa [getIdx] using h j (by simpa using hj)
      · intro h j hj
        simpa [getIdx] using h (j + 1) (by simpa using Nat.succ_lt_succ hj)

theorem firstIdxWhere_all_true (p : Node → Bool) (g : List Node)
    (hall : ∀ n ∈ g, p n = true) (hne : g ≠ []) :
    firstIdxWhere p g = some 0 := by
  cases g with
  | nil => exact absurd rfl hne
  | cons n t =>
    have := hall n (List.mem_cons_self n t)
    simp [firstIdxWhere, this]

theorem lastIdxWhere_all_true (p : Node → Bool) (g : List Node)
    (hall : ∀ n ∈ g, p n = true) (hne : g ≠ []) :
    lastIdxWhere p g = some (g.length - 1) := by
  induction g with
  | nil => exact absurd rfl hne
  | cons n t ih =>
    cases t with
    | nil =>
      have := hall n (List.mem_cons_self n [])
      simp [lastIdxWhere, this]
    | cons m u =>
      have ht := ih (fun x hx => hall x (List.mem_cons_of_mem n hx)) (by simp)
      simp only [lastIdxWhere] at ht ⊢
      rw [ht]
      simp

theorem countBy_eq_zero_iff (p : Node → Bool) (g : List Node) :
    countBy p g = 0 ↔ ∀ n ∈ g, p n = false := by
  induction g with
  | nil => simp [countBy]
  | cons n t ih =>
    by_cases hp : p n = true
    · simp [countBy, hp, ih]
    · have hp' : p n = false := by
        cases h : p n
        · rfl
        · exact absurd h hp
      simp [countBy, hp', ih]

/-! ### Node-level facts about the flag writers -/

theorem isChecked_checkFn (n : Node) : isChecked (checkFn n) = true := rfl

theorem isFocusable_checkFn (n : Node) : isFocusable (checkFn n) = true := rfl

theorem isRadio_checkFn (n : Node) : isRadio (checkFn n) = isRadio n := rfl

theorem isChecked_uncheckFn (n : Node) (h : isRadio n = true) :
    isChecked (uncheckFn n) = false := by
  simp [uncheckFn, h, isChecked]

theorem isFocusable_uncheckFn (n : Node) (h : isRadio n = true) :
    isFocusable (uncheckFn n) = false := by
  simp [uncheckFn, h, isFocusable]

theorem isRadio_uncheckFn (n : Node) : isRadio (uncheckFn n) = isRadio n := by
  unfold uncheckFn
  split <;> rfl

theorem isChecked_uncheckFn_of_not_radio (n : Node) (h : isRadio n = false) :
    isChecked (uncheckFn n) = isChecked n := by
  simp [uncheckFn, h]

theorem checkFn_uncheckFn (n : Node) : checkFn (uncheckFn n) = checkFn n := by
  by_cases h : isRadio n = true
  · simp [uncheckFn, h, checkFn]
  · simp [uncheckFn, h]

theorem checkFn_checkFn (n : Node) : checkFn (checkFn n) = checkFn n := rfl

theorem uncheckFn_uncheckFn (n : Node) : uncheckFn (uncheckFn n) = uncheckFn n := by
  by_cases h : isRadio n = true
  · have hr : n.role = some Role.radio := by simpa [isRadio] using h
    simp [uncheckFn, isRadio, hr]
  · have hr : ¬ n.role = some Role.radio := by simpa [isRadio] using h
    simp [uncheckFn, isRadio, hr]

/-! ### State of `_setChecked` -/

theorem setChecked_fst (g : List Node) (i : Nat) :
    (_setChecked g i).1 = modifyAt (g.map uncheckFn) i checkFn := rfl

theorem length_setChecked (g : List Node) (i : Nat) :
    (_setChecked g i).1.length = g.length := by
  rw [setChecked_fst, length_modifyAt, List.length_map]

theorem getIdx_setChecked_self (g : List Node) (i : Nat) (hi : i < g.length) :
    getIdx (_setChecked g i).1 i = checkFn (getIdx g i) := by
  rw [setChecked_fst, getIdx_modifyAt_self _ _ _ (by simpa using hi),
    getIdx_map _ _ _ hi, checkFn_uncheckFn]

theorem getIdx_setChecked_ne (g : List Node) (i j : Nat) (hne : j ≠ i)
    (hj : j < g.length) : getIdx (_setChecked g i).1 j = uncheckFn (getIdx g j) := by
  rw [setChecked_fst, getIdx_modifyAt_ne _ _ _ _ hne, getIdx_map _ _ _ hj]

theorem allRadio_setChecked (g : List Node) (i : Nat)
    (hall : ∀ n ∈ g, isRadio n = true) :
    ∀ n ∈ (_setChecked g i).1, isRadio n = true := by
  rw [forall_mem_iff_getIdx] at hall ⊢
  intro j hj
  rw [length_setChecked] at hj
  by_cases hji : j = i
  · subst hji
    rw [getIdx_setChecked_self g j hj, isRadio_checkFn]
    exact hall j hj
  · rw [getIdx_setChecked_ne g i j hji hj, isRadio_uncheckFn]
    exact hall j hj

theorem countBy_map_uncheckFn_eq_zero (p : Node → Bool) (g : List Node)
    (hp : ∀ n, isRadio n = true → p (uncheckFn n) = false)
    (hall : ∀ n ∈ g, isRadio n = true) :
    countBy p (g.map uncheckFn) = 0 := by
  induction g with
  | nil => rfl
  | cons n t ih =>
    have hn := hp n (hall n (List.mem_cons_self n t))
    simp only [List.map, countBy, hn, if_neg Bool.false_ne_true]
    simpa using ih (fun x hx => hall x (List.mem_cons_of_mem n hx))

theorem countBy_setChecked_eq_one (p : Node → Bool) (g : List Node) (i : Nat)
    (hp1 : ∀ n, p (checkFn n) = true)
    (hp0 : ∀ n, isRadio n = true → p (uncheckFn n) = false)
    (hall : ∀ n ∈ g, isRadio n = true) (hi : i < g.length) :
    countBy p (_setChecked g i).1 = 1 := by
  rw [setChecked_fst]
  induction g generalizing i with
  | nil => simp at hi
  | cons n t ih =>
    have hn := hall n (List.mem_cons_self n t)
    have ht : ∀ x ∈ t, isRadio x = true :=
      fun x hx => hall x (List.mem_cons_of_mem n hx)
    cases i with
    | zero =>
      simp only [List.map, modifyAt, countBy, checkFn_uncheckFn, hp1,
        if_pos]
      rw [countBy_map_uncheckFn_eq_zero p t hp0 ht]
    | succ i =>
      simp only [List.map, modifyAt, countBy, hp0 n hn,
        if_neg Bool.false_ne_true]
      simpa using ih i ht (by simpa using hi)

/-! ### Trace of `_setChecked` -/

theorem setChecked_snd (g : List Node) (i : Nat) :
    (_setChecked g i).2 =
      uncheckTraceFrom g 0 ++
        [Ev.setChecked i AriaChecked.aTrue, Ev.setTab i 0, Ev.focus i] := by
  simp [_setChecked, _uncheckAll, _checkNode, _focusNode]

theorem no_focus_uncheckTrace (g : List Node) (i : Nat) :
    ∀ e ∈ uncheckTraceFrom g i, isFocusEv e = false := by
  induction g generalizing i with
  | nil => intro e he; simp [uncheckTraceFrom] at he
  | cons n t ih =>
    intro e he
    by_cases h : isRadio n = true
    · simp only [uncheckTraceFrom, h, if_pos] at he
      rcases List.mem_cons.mp he with rfl | he
      · rfl
      rcases List.mem_cons.mp he with rfl | he
      · rfl
      · exact ih (i + 1) e he
    · simp only [uncheckTraceFrom, h, if_neg] at he
      exact ih (i + 1) e he

theorem filter_focus_setChecked (g : List Node) (i : Nat) :
    ((_setChecked g i).2.filter isFocusEv) = [Ev.focus i] := by
  rw [setChecked_snd, List.filter_append]
  have h1 : (uncheckTraceFrom g 0).filter isFocusEv = [] := by
    rw [List.filter_eq_nil_iff]
    intro e he
    rw [no_focus_uncheckTrace g 0 e he]
    exact Bool.false_ne_true
  rw [h1]
  rfl

theorem getLast_setChecked (g : List Node) (i : Nat) :
    (_setChecked g i).2.getLast? = some (Ev.focus i) := by
  rw [setChecked_snd, List.getLast?_append_cons]
  rfl

/-! ### Characterization of the sibling walks -/

theorem prevAux_some_iff (g : List Node) (i j : Nat) :
    prevAux g i = some j ↔
      j < i ∧ isRadio (getIdx g j) = true ∧
        ∀ k, j < k → k < i → isRadio (getIdx g k) = false := by
  induction i with
  | zero =>
    simp only [prevAux]
    constructor
    · intro h; cases h
    · rintro ⟨h, -, -⟩; omega
  | succ i ih =>
    by_cases hr : isRadio (getIdx g i) = true
    · simp only [prevAux, hr, if_pos]
      constructor
      · intro h
        cases h
        exact ⟨by omega, hr, fun k h1 h2 => by omega⟩
      · rintro ⟨h1, h2, h3⟩
        by_cases hji : j = i
        · rw [hji]
        · have hk := h3 i (by omega) (by omega)
          rw [hr] at hk
          cases hk
    · have hr' : isRadio (getIdx g i) = false := by
        cases h : isRadio (getIdx g i)
        · rfl
        · exact absurd h hr
      simp only [prevAux, hr', if_neg Bool.false_ne_true]
      rw [ih]
      constructor
      · rintro ⟨h1, h2, h3⟩
        refine ⟨by omega, h2, fun k hk1 hk2 => ?_⟩
        by_cases hki : k = i
        · rw [hki, hr']
        · exact h3 k hk1 (by omega)
      · rintro ⟨h1, h2, h3⟩
        refine ⟨?_, h2, fun k hk1 hk2 => h3 k hk1 (by omega)⟩
        by_cases hji : j = i
        · rw [hji] at h2
          rw [hr'] at h2
          cases h2
        · omega

theorem prevAux_none_iff (g : List Node) (i : Nat) :
    prevAux g i = none ↔ ∀ k, k < i → isRadio (getIdx g k) = false := by
  induction i with
  | zero =>
    constructor
    · intro _ k hk
      omega
    · intro _
      rfl
  | succ i ih =>
    by_cases hr : isRadio (getIdx g i) = true
    · simp only [prevAux, hr, if_pos]
      constructor
      · intro h; cases h
      · intro h
        have := h i (by omega)
        rw [hr] at this
        cases this
    · have hr' : isRadio (getIdx g i) = false := by
        cases h : isRadio (getIdx g i)
        · rfl
        · exact absurd h hr
      simp only [prevAux, hr', if_neg Bool.false_ne_true]
      rw [ih]
      constructor
      · intro h k hk
        by_cases hki : k = i
        · rw [hki, hr']
        · exact h k (by omega)
      · intro h k hk
        exact h k (by omega)

theorem nextRadio_some_iff (g : List Node) (i j : Nat) :
    _nextRadioButton g i = some j ↔
      i < j ∧ j < g.length ∧ isRadio (getIdx g j) = true ∧
        ∀ k, i < k → k < j → isRadio (getIdx g k) = false := by
  simp only [_nextRadioButton, Option.map_eq_some']
  constructor
  · rintro ⟨a, ha, rfl⟩
    rcases (firstIdxWhere_some_iff _ _ _).mp ha with ⟨h1, h2, h3⟩
    rw [List.length_drop] at h1
    rw [getIdx_drop] at h2
    refine ⟨by omega, by omega, h2, fun k hk1 hk2 => ?_⟩
    have := h3 (k - (i + 1)) (by omega)
    rw [getIdx_drop] at this
    have hke : i + 1 + (k - (i + 1)) = k := by omega
    rwa [hke] at this
  · rintro ⟨h1, h2, h3, h4⟩
    refine ⟨j - (i + 1), (firstIdxWhere_some_iff _ _ _).mpr ⟨?_, ?_, ?_⟩, by omega⟩
    · rw [List.length_drop]; omega
    · rw [getIdx_drop]
      have hje : i + 1 + (j - (i + 1)) = j := by omega
      rwa [hje]
    · intro k hk
      rw [getIdx_drop]
      exact h4 (i + 1 + k) (by omega) (by omega)

theorem nextRadio_none_iff (g : List Node) (i : Nat) :
    _nextRadioButton g i = none ↔
      ∀ k, i < k → k < g.length → isRadio (getIdx g k) = false := by
  simp only [_nextRadioButton, Option.map_eq_none']
  rw [firstIdxWhere_none_iff]
  constructor
  · intro h k hk1 hk2
    have := h (k - (i + 1)) (by rw [List.length_drop]; omega)
    rw [getIdx_drop] at this
    have hke : i + 1 + (k - (i + 1)) = k := by omega
    rwa [hke] at this
  · intro h k hk
    rw [List.length_drop] at hk
    rw [getIdx_drop]
    exact h (i + 1 + k) (by omega) (by omega)

/-! ### Facts about `tabZeroFn` -/

theorem isChecked_tabZeroFn (n : Node) : isChecked (tabZeroFn n) = isChecked n := rfl

theorem isRadio_tabZeroFn (n : Node) : isRadio (tabZeroFn n) = isRadio n := rfl

theorem isFocusable_tabZeroFn (n : Node) : isFocusable (tabZeroFn n) = true := rfl

theorem tabZeroFn_tabZeroFn (n : Node) : tabZeroFn (tabZeroFn n) = tabZeroFn n := rfl

/-! ### The three branches of `connectedCallback` -/

theorem connectedCallback_checked (g : List Node) (i : Nat)
    (hc : checkedRadioButton g = some i) :
    connectedCallback g = Except.ok (_setChecked g i).1 := by
  simp [connectedCallback, hc, setChecked_fst, _checkNode, _uncheckAll]

theorem connectedCallback_unchecked (g : List Node) (j : Nat)
    (hc : checkedRadioButton g = none) (hf : firstIdxWhere isRadio g = some j) :
    connectedCallback g = Except.ok (modifyAt g j tabZeroFn) := by
  simp [connectedCallback, hc, hf]

theorem connectedCallback_error (g : List Node)
    (hc : checkedRadioButton g = none) (hf : firstIdxWhere isRadio g = none) :
    connectedCallback g = Except.error g := by
  simp [connectedCallback, hc, hf]

/-- After `_setChecked g i` where `i` was the first checked child, the
first checked child is again `i`. -/
theorem checkedRadioButton_setChecked (g : List Node) (i : Nat)
    (hc : checkedRadioButton g = some i) :
    checkedRadioButton (_setChecked g i).1 = some i := by
  rcases (firstIdxWhere_some_iff _ _ _).mp hc with ⟨h1, h2, h3⟩
  refine (firstIdxWhere_some_iff _ _ _).mpr ⟨by rwa [length_setChecked], ?_, ?_⟩
  · rw [getIdx_setChecked_self g i h1, isChecked_checkFn]
  · intro j hj
    rw [getIdx_setChecked_ne g i j (by omega) (by omega)]
    by_cases hr : isRadio (getIdx g j) = true
    · exact isChecked_uncheckFn _ hr
    · have hr' : isRadio (getIdx g j) = false := by
        cases h : isRadio (getIdx g j)
        · rfl
        · exact absurd h hr
      rw [isChecked_uncheckFn_of_not_radio _ hr']
      exact h3 j hj

/-- Normalizing twice onto the same index is the same as normalizing once. -/
theorem setChecked_setChecked (g : List Node) (i : Nat) (hi : i < g.length) :
    (_setChecked (_setChecked g i).1 i).1 = (_setChecked g i).1 := by
  have hlen : (_setChecked g i).1.length = g.length := length_setChecked g i
  refine ext_getIdx _ _ (by rw [length_setChecked, hlen]) ?_
  intro j hj
  rw [length_setChecked, hlen] at hj
  by_cases hji : j = i
  · subst hji
    rw [getIdx_setChecked_self _ _ (by rwa [hlen]), getIdx_setChecked_self _ _ hj,
      checkFn_checkFn]
  · rw [getIdx_setChecked_ne _ _ _ hji (by rwa [hlen]),
      getIdx_setChecked_ne _ _ _ hji hj, uncheckFn_uncheckFn]

theorem checkedRadioButton_modify_tabZero (g : List Node) (j : Nat)
    (hc : checkedRadioButton g = none) :
    checkedRadioButton (modifyAt g j tabZeroFn) = none := by
  unfold checkedRadioButton at hc ⊢
  rw [firstIdxWhere_none_iff] at hc ⊢
  intro k hk
  rw [length_modifyAt] at hk
  by_cases hkj : k = j
  · subst hkj
    rcases Nat.lt_or_ge k g.length with h | h
    · rw [getIdx_modifyAt_self _ _ _ h, isChecked_tabZeroFn]
      exact hc k hk
    · omega
  · rw [getIdx_modifyAt_ne _ _ _ _ hkj]
    exact hc k hk

theorem firstRadio_modify_tabZero (g : List Node) (j : Nat)
    (hf : firstIdxWhere isRadio g = some j) :
    firstIdxWhere isRadio (modifyAt g j tabZeroFn) = some j := by
  rcases (firstIdxWhere_some_iff _ _ _).mp hf with ⟨h1, h2, h3⟩
  refine (firstIdxWhere_some_iff _ _ _).mpr ⟨by rwa [length_modifyAt], ?_, ?_⟩
  · rw [getIdx_modifyAt_self _ _ _ h1, isRadio_tabZeroFn]
    exact h2
  · intro k hk
    rw [getIdx_modifyAt_ne _ _ _ _ (by omega)]
    exact h3 k hk

theorem modify_tabZero_idem (g : List Node) (j : Nat) :
    modifyAt (modifyAt g j tabZeroFn) j tabZeroFn = modifyAt g j tabZeroFn := by
  refine ext_getIdx _ _ (by rw [length_modifyAt, length_modifyAt]) ?_
  intro k hk
  rw [length_modifyAt, length_modifyAt] at hk
  by_cases hkj : k = j
  · subst hkj
    rw [getIdx_modifyAt_self _ _ _ (by rwa [length_modifyAt]),
      getIdx_modifyAt_self _ _ _ hk, tabZeroFn_tabZeroFn]
  · rw [getIdx_modifyAt_ne _ _ _ _ hkj, getIdx_modifyAt_ne _ _ _ _ hkj]

/-- Items stay candidates when the first child gets `tabindex = 0`. -/
theorem allRadio_modify_tabZero (g : List Node) (j : Nat)
    (hall : ∀ n ∈ g, isRadio n = true) :
    ∀ n ∈ modifyAt g j tabZeroFn, isRadio n = true := by
  rw [forall_mem_iff_getIdx] at hall ⊢
  intro k hk
  rw [length_modifyAt] at hk
  by_cases hkj : k = j
  · subst hkj
    rw [getIdx_modifyAt_self _ _ _ hk, isRadio_tabZeroFn]
    exact hall k hk
  · rw [getIdx_modifyAt_ne _ _ _ _ hkj]
    exact hall k hk

/-- Invariant maintained by attach and select on an all-candidate group
from a well-formed initial state: all items stay candidates, exactly one
item is focusable, and any checked item is the focusable one. -/
theorem reachable_invariant (g0 : List Node) (hall : ∀ n ∈ g0, isRadio n = true)
    (hne : g0 ≠ [])
    (hinit : (∃ n ∈ g0, isChecked n = true) ∨ (∀ n ∈ g0, isFocusable n = false)) :
    ∀ s, Reachable g0 s →
      (∀ n ∈ s, isRadio n = true) ∧ countBy isFocusable s = 1 ∧
        ∀ j, j < s.length → isChecked (getIdx s j) = true →
          isFocusable (getIdx s j) = true := by
  intro s hs
  induction hs with
  | attach s hcc =>
    cases hc : checkedRadioButton g0 with
    | some i =>
      rw [connectedCallback_checked g0 i hc] at hcc
      have hse : (_setChecked g0 i).1 = s := by
        cases hcc
        rfl
      subst hse
      have hi : i < g0.length := ((firstIdxWhere_some_iff _ _ _).mp hc).1
      refine ⟨allRadio_setChecked g0 i hall, ?_, ?_⟩
      · exact countBy_setChecked_eq_one isFocusable g0 i isFocusable_checkFn
          isFocusable_uncheckFn hall hi
      · intro j hj hcj
        rw [length_setChecked] at hj
        by_cases hji : j = i
        · subst hji
          rw [getIdx_setChecked_self _ _ hj, isFocusable_checkFn]
        · rw [getIdx_setChecked_ne _ _ _ hji hj] at hcj
          rw [isChecked_uncheckFn _ ((forall_mem_iff_getIdx _ _).mp hall j hj)] at hcj
          cases hcj
    | none =>
      have hfoc : ∀ n ∈ g0, isFocusable n = false := by
        rcases hinit with ⟨n, hn, hchk⟩ | h
        · rcases mem_getIdx g0 n hn with ⟨j, hj, rfl⟩
          have := (firstIdxWhere_none_iff isChecked g0).mp hc j hj
          rw [hchk] at this
          cases this
        · exact h
      have hf : firstIdxWhere isRadio g0 = some 0 :=
        firstIdxWhere_all_true isRadio g0 hall hne
      rw [connectedCallback_unchecked g0 0 hc hf] at hcc
      have hse : modifyAt g0 0 tabZeroFn = s := by
        cases hcc
        rfl
      subst hse
      refine ⟨allRadio_modify_tabZero g0 0 hall, ?_, ?_⟩
      · cases g0 with
        | nil => exact absurd rfl hne
        | cons n t =>
          have ht : countBy isFocusable t = 0 := (countBy_eq_zero_iff _ _).mpr
            (fun x hx => hfoc x (List.mem_cons_of_mem n hx))
          simp only [modifyAt, countBy, isFocusable_tabZeroFn, if_pos, ht]
      · intro j hj hcj
        rw [length_modifyAt] at hj
        have hcg : isChecked (getIdx g0 j) = false :=
          (firstIdxWhere_none_iff isChecked g0).mp hc j hj
        by_cases hj0 : j = 0
        · subst hj0
          rw [getIdx_modifyAt_self _ _ _ hj, isChecked_tabZeroFn, hcg] at hcj
          cases hcj
        · rw [getIdx_modifyAt_ne _ _ _ _ hj0, hcg] at hcj
          cases hcj
  | step s i _ hi ih =>
    rcases ih with ⟨ihr, _, _⟩
    refine ⟨allRadio_setChecked s i ihr, ?_, ?_⟩
    · exact countBy_setChecked_eq_one isFocusable s i isFocusable_checkFn
        isFocusable_uncheckFn ihr hi
    · intro j hj hcj
      rw [length_setChecked] at hj
      by_cases hji : j = i
      · subst hji
        rw [getIdx_setChecked_self _ _ hj, isFocusable_checkFn]
      · rw [getIdx_setChecked_ne _ _ _ hji hj] at hcj
        rw [isChecked_uncheckFn _ ((forall_mem_iff_getIdx _ _).mp ihr j hj)] at hcj
        cases hcj

/-! ### The claims -/

/-- Claim C1 (confirmed): after any select operation (`_setChecked`, the
single funnel for keyboard navigation and clicks) on a group of radio
items, at most one item has `aria-checked="true"`.  The pre-state `g` is
arbitrary, so this holds immediately after each operation of every
sequence of selects. -/
theorem claim1_single_selection (g : List Node) (i : Nat)
    (hall : ∀ n ∈ g, isRadio n = true) (hi : i < g.length) :
    countBy isChecked (_setChecked g i).1 ≤ 1 := by
  rw [countBy_setChecked_eq_one isChecked g i isChecked_checkFn
    isChecked_uncheckFn hall hi]

/-- Witness for C1: selecting item 0 in a concrete two-item group leaves
at most one item checked. -/
theorem claim1_witness : countBy isChecked (_setChecked [rDefault, rChecked] 0).1 ≤ 1 :=
  claim1_single_selection [rDefault, rChecked] 0 (by decide) (by decide)

/-- Claim C2 (counterexample): the roving-focus invariant as stated fails
on the code.  In the non-empty all-radio group `cexGroup` (no item
checked, second item carrying a user-set `tabindex="0"`), the state
produced by attach — reachable by zero select operations — has two
focusable items, because the no-selection branch of `connectedCallback`
sets `tabindex=0` on the first radio without clearing the others. -/
theorem claim2_counterexample :
    Reachable cexGroup cexAfter ∧ countBy isFocusable cexAfter = 2 :=
  ⟨Reachable.attach cexAfter rfl, by decide⟩

/-- Claim C2 (amended): in every state reachable from attach on a
non-empty group of radio items whose initial state either has some item
checked or has no item focusable (the default `tabindex="-1"`
initialisation), exactly one item is focusable, and every checked item is
the focusable one. -/
theorem claim2_roving_invariant (g0 : List Node)
    (hall : ∀ n ∈ g0, isRadio n = true) (hne : g0 ≠ [])
    (hinit : (∃ n ∈ g0, isChecked n = true) ∨ (∀ n ∈ g0, isFocusable n = false))
    (s : List Node) (hs : Reachable g0 s) :
    countBy isFocusable s = 1 ∧
      ∀ j, j < s.length → isChecked (getIdx s j) = true →
        isFocusable (getIdx s j) = true :=
  ⟨(reachable_invariant g0 hall hne hinit s hs).2.1,
   (reachable_invariant g0 hall hne hinit s hs).2.2⟩

/-- Witness for the amended C2: the attach state of a well-initialised
three-item group has exactly one focusable item. -/
theorem claim2_witness : countBy isFocusable wGroup3After = 1 :=
  (claim2_roving_invariant wGroup3 (by decide) (by decide) (Or.inr (by decide))
    wGroup3After (Reachable.attach wGroup3After rfl)).1

/-- Claim C3 (confirmed): `select(target)` on a group of radio items
clears `isSelected`/`isFocusable` on every other item, sets both flags on
the target, and its side-effect trace contains exactly one focus-transfer
request, naming the target, as its last event — after all flag writes. -/
theorem claim3_select (g : List Node) (i : Nat)
    (hall : ∀ n ∈ g, isRadio n = true) (hi : i < g.length) :
    (∀ j, j < g.length → j ≠ i →
        isChecked (getIdx (_setChecked g i).1 j) = false ∧
          isFocusable (getIdx (_setChecked g i).1 j) = false) ∧
      isChecked (getIdx (_setChecked g i).1 i) = true ∧
      isFocusable (getIdx (_setChecked g i).1 i) = true ∧
      (_setChecked g i).2.filter isFocusEv = [Ev.focus i] ∧
      (_setChecked g i).2.getLast? = some (Ev.focus i) := by
  refine ⟨?_, ?_, ?_, filter_focus_setChecked g i, getLast_setChecked g i⟩
  · intro j hj hji
    rw [getIdx_setChecked_ne _ _ _ hji hj]
    have hr := (forall_mem_iff_getIdx _ _).mp hall j hj
    exact ⟨isChecked_uncheckFn _ hr, isFocusable_uncheckFn _ hr⟩
  · rw [getIdx_setChecked_self _ _ hi, isChecked_checkFn]
  · rw [getIdx_setChecked_self _ _ hi, isFocusable_checkFn]

/-- Witness for C3: selecting item 1 of a concrete two-item group ends
with the focus request on item 1 as the final event. -/
theorem claim3_witness :
    (_setChecked [rChecked, rDefault] 1).2.getLast? = some (Ev.focus 1) :=
  (claim3_select [rChecked, rDefault] 1 (by decide) (by decide)).2.2.2.2

/-- Claim C4 (counterexample): attach on an empty group is **not** a
normal no-op: with no children, `checkedRadioButton` is `null`, so
`connectedCallback` reaches
`this.querySelector('[role="radio"]').setAttribute('tabindex', 0)` and
dereferences a `null` query result — modelled by `Except.error` carrying
the (unchanged, empty) children. -/
theorem claim4_counterexample : connectedCallback [] = Except.error [] := rfl

/-- Claim C4 (amended): attach on a group with no candidate items and no
`aria-checked="true"` child (in particular the empty group) performs no
mutation of any item flags, but does not complete normally: it fails with
a null dereference whose error state carries the items untouched. -/
theorem claim4_amended (g : List Node) (hnr : ∀ n ∈ g, isRadio n = false)
    (hnc : ∀ n ∈ g, isChecked n = false) :
    connectedCallback g = Except.error g := by
  apply connectedCallback_error
  · exact (firstIdxWhere_none_iff _ _).mpr (fun j hj => hnc _ (getIdx_mem g j hj))
  · exact (firstIdxWhere_none_iff _ _).mpr (fun j hj => hnr _ (getIdx_mem g j hj))

/-- Witness for the amended C4: a group holding one non-candidate node
errors without mutating it. -/
theorem claim4_witness : connectedCallback [plainNode] = Except.error [plainNode] :=
  claim4_amended [plainNode] (by decide) (by decide)

/-- Claim C5 (confirmed): on a non-empty group of radio items, when the
current item (`checkedRadioButton || firstRadioButton`) is the last item,
`_setCheckedToNextButton` selects the first item; when it is the first
item, `_setCheckedToPrevButton` selects the last; on a single-item group
both operations re-select that item. -/
theorem claim5_wraparound (g : List Node) (hall : ∀ n ∈ g, isRadio n = true)
    (hne : g ≠ []) :
    (currentButton g = some (g.length - 1) →
        _setCheckedToNextButton g = some (_setChecked g 0)) ∧
      (currentButton g = some 0 →
        _setCheckedToPrevButton g = some (_setChecked g (g.length - 1))) ∧
      (g.length = 1 →
        _setCheckedToNextButton g = some (_setChecked g 0) ∧
          _setCheckedToPrevButton g = some (_setChecked g 0)) := by
  have hf : firstRadioButton g = some 0 := firstIdxWhere_all_true isRadio g hall hne
  have hl : lastRadioButton g = some (g.length - 1) :=
    lastIdxWhere_all_true isRadio g hall hne
  have hnext : currentButton g = some (g.length - 1) →
      _setCheckedToNextButton g = some (_setChecked g 0) := by
    intro hcur
    unfold _setCheckedToNextButton
    rw [hcur, hl, if_pos rfl, hf]
  have hprev : currentButton g = some 0 →
      _setCheckedToPrevButton g = some (_setChecked g (g.length - 1)) := by
    intro hcur
    unfold _setCheckedToPrevButton
    rw [hcur, hf, if_pos rfl, hl]
  refine ⟨hnext, hprev, fun h1 => ?_⟩
  have hcur : currentButton g = some 0 := by
    unfold currentButton
    cases hc : checkedRadioButton g with
    | some c =>
      have hcl := ((firstIdxWhere_some_iff _ _ _).mp hc).1
      have : c = 0 := by omega
      rw [this]
    | none => exact hf
  constructor
  · apply hnext
    rw [hcur, h1]
  · simpa [h1] using hprev hcur

/-- Witness for C5: `selectNext` from the last (checked) item of a
three-item group wraps to the first item. -/
theorem claim5_witness :
    _setCheckedToNextButton [rDefault, rDefault, rChecked] =
      some (_setChecked [rDefault, rDefault, rChecked] 0) :=
  (claim5_wraparound [rDefault, rDefault, rChecked] (by decide) (by decide)).1 (by decide)

/-- Claim C6 (confirmed): attach on a non-empty group of radio items.  If
some item is checked (`checkedRadioButton = some i`), the result clears
both flags on all other items and sets both on item `i`; otherwise the
result only sets `tabindex = 0` on the first item, leaves every other
item untouched, and leaves every item unselected. -/
theorem claim6_attach (g : List Node) (hall : ∀ n ∈ g, isRadio n = true)
    (hne : g ≠ []) :
    (∀ i, checkedRadioButton g = some i →
        connectedCallback g = Except.ok (_setChecked g i).1 ∧
          isChecked (getIdx (_setChecked g i).1 i) = true ∧
          isFocusable (getIdx (_setChecked g i).1 i) = true ∧
          ∀ j, j < g.length → j ≠ i →
            isChecked (getIdx (_setChecked g i).1 j) = false ∧
              isFocusable (getIdx (_setChecked g i).1 j) = false) ∧
      (checkedRadioButton g = none →
        connectedCallback g = Except.ok (modifyAt g 0 tabZeroFn) ∧
          isFocusable (getIdx (modifyAt g 0 tabZeroFn) 0) = true ∧
          (∀ j, j < g.length → j ≠ 0 →
            getIdx (modifyAt g 0 tabZeroFn) j = getIdx g j) ∧
          ∀ j, j < g.length →
            isChecked (getIdx (modifyAt g 0 tabZeroFn) j) = false) := by
  have hlen : 0 < g.length := List.length_pos.mpr hne
  constructor
  · intro i hc
    have hi : i < g.length := ((firstIdxWhere_some_iff _ _ _).mp hc).1
    refine ⟨connectedCallback_checked g i hc, ?_, ?_, ?_⟩
    · rw [getIdx_setChecked_self _ _ hi, isChecked_checkFn]
    · rw [getIdx_setChecked_self _ _ hi, isFocusable_checkFn]
    · intro j hj hji
      rw [getIdx_setChecked_ne _ _ _ hji hj]
      have hr := (forall_mem_iff_getIdx _ _).mp hall j hj
      exact ⟨isChecked_uncheckFn _ hr, isFocusable_uncheckFn _ hr⟩
  · intro hc
    have hf : firstIdxWhere isRadio g = some 0 :=
      firstIdxWhere_all_true isRadio g hall hne
    refine ⟨connectedCallback_unchecked g 0 hc hf, ?_, ?_, ?_⟩
    · rw [getIdx_modifyAt_self _ _ _ hlen, isFocusable_tabZeroFn]
    · intro j hj hj0
      rw [getIdx_modifyAt_ne _ _ _ _ hj0]
    · intro j hj
      have hcg : isChecked (getIdx g j) = false :=
        (firstIdxWhere_none_iff isChecked g).mp hc j hj
      by_cases hj0 : j = 0
      · subst hj0
        rw [getIdx_modifyAt_self _ _ _ hlen, isChecked_tabZeroFn, hcg]
      · rw [getIdx_modifyAt_ne _ _ _ _ hj0, hcg]

/-- Witness for C6: attaching a two-item group with no selection makes
item 0 focusable. -/
theorem claim6_witness :
    isFocusable (getIdx (modifyAt [rDefault, rDefault] 0 tabZeroFn) 0) = true :=
  ((claim6_attach [rDefault, rDefault] (by decide) (by decide)).2 rfl).2.1

/-- Claim C7 (confirmed): attach is idempotent: if `connectedCallback`
succeeds producing state `s`, running it again from `s` succeeds and
leaves `s` unchanged. -/
theorem claim7_attach_idempotent (g s : List Node)
    (h : connectedCallback g = Except.ok s) :
    connectedCallback s = Except.ok s := by
  cases hc : checkedRadioButton g with
  | some i =>
    rw [connectedCallback_checked g i hc] at h
    have hse : (_setChecked g i).1 = s := by
      cases h
      rfl
    subst hse
    rw [connectedCallback_checked _ i (checkedRadioButton_setChecked g i hc),
      setChecked_setChecked g i ((firstIdxWhere_some_iff _ _ _).mp hc).1]
  | none =>
    cases hf : firstIdxWhere isRadio g with
    | some j =>
      rw [connectedCallback_unchecked g j hc hf] at h
      have hse : modifyAt g j tabZeroFn = s := by
        cases h
        rfl
      subst hse
      rw [connectedCallback_unchecked _ j (checkedRadioButton_modify_tabZero g j hc)
        (firstRadio_modify_tabZero g j hf), modify_tabZero_idem]
    | none =>
      rw [connectedCallback_error g hc hf] at h
      cases h

/-- Witness for C7: re-attaching the attach state of `[rDefault]` changes
nothing. -/
theorem claim7_witness : connectedCallback wSingleAfter = Except.ok wSingleAfter :=
  claim7_attach_idempotent [rDefault] wSingleAfter rfl

/-- Claim C8 (confirmed): the next/previous computations return exactly
the nearest following (resp. preceding) sibling with `role="radio"`,
skipping interleaved non-candidates, and `none` when no such sibling
exists. -/
theorem claim8_traversal (g : List Node) (i : Nat) (hi : i < g.length) :
    (∀ j, _nextRadioButton g i = some j ↔
        i < j ∧ j < g.length ∧ isRadio (getIdx g j) = true ∧
          ∀ k, i < k → k < j → isRadio (getIdx g k) = false) ∧
      (_nextRadioButton g i = none ↔
        ∀ k, i < k → k < g.length → isRadio (getIdx g k) = false) ∧
      (∀ j, _prevRadioButton g i = some j ↔
        j < i ∧ isRadio (getIdx g j) = true ∧
          ∀ k, j < k → k < i → isRadio (getIdx g k) = false) ∧
      (_prevRadioButton g i = none ↔
        ∀ k, k < i → isRadio (getIdx g k) = false) :=
  ⟨fun j => nextRadio_some_iff g i j, nextRadio_none_iff g i,
   fun j => prevAux_some_iff g i j, prevAux_none_iff g i⟩

/-- Witness for C8: in `[radio, non-candidate, radio]`, the next radio
after index 0 is index 2, skipping the non-candidate at index 1. -/
theorem claim8_witness :
    0 < 2 ∧ 2 < ([rDefault, plainNode, rDefault] : List Node).length ∧
      isRadio (getIdx [rDefault, plainNode, rDefault] 2) = true ∧
      ∀ k, 0 < k → k < 2 → isRadio (getIdx [rDefault, plainNode, rDefault] k) = false :=
  ((claim8_traversal [rDefault, plainNode, rDefault] 0 (by decide)).1 2).mp rfl

/-- Claim C9 (confirmed): any key code other than the four direction keys
(37 left, 38 up, 39 right, 40 down) falls into the handler's `default`
branch: no item flag changes, no side effects, no error.  In particular
the space key (32), though listed in `KEYCODE`, causes no state change
(see the witness). -/
theorem claim9_unrecognized_keys (g : List Node) (keyCode : Nat)
    (h37 : keyCode ≠ KEYCODE.LEFT) (h38 : keyCode ≠ KEYCODE.UP)
    (h39 : keyCode ≠ KEYCODE.RIGHT) (h40 : keyCode ≠ KEYCODE.DOWN) :
    _onKeyDown g keyCode = some (g, []) := by
  have hA : ¬((keyCode == KEYCODE.UP || keyCode == KEYCODE.LEFT) = true) := by
    simp only [Bool.or_eq_true, beq_iff_eq]
    rintro (h | h)
    · exact h38 h
    · exact h37 h
  have hB : ¬((keyCode == KEYCODE.DOWN || keyCode == KEYCODE.RIGHT) = true) := by
    simp only [Bool.or_eq_true, beq_iff_eq]
    rintro (h | h)
    · exact h40 h
    · exact h39 h
  unfold _onKeyDown
  rw [if_neg hA, if_neg hB]

/-- Witness for C9: the space key leaves a concrete group untouched. -/
theorem claim9_witness :
    _onKeyDown [rDefault, rChecked] KEYCODE.SPACE = some ([rDefault, rChecked], []) :=
  claim9_unrecognized_keys [rDefault, rChecked] KEYCODE.SPACE
    (by decide) (by decide) (by decide) (by decide)

/-- Claim C10 (confirmed): a click whose exact target does not carry
`role="radio"` — including a non-candidate nested inside a candidate,
since the handler never looks at ancestors — leaves the state unchanged
and produces an empty side-effect trace (in particular no focus-transfer
request). -/
theorem claim10_click_ignored (g : List Node) (targetRole : Option Role)
    (targetIdx : Nat) (h : targetRole ≠ some Role.radio) :
    _onClick g targetRole targetIdx = (g, []) := by
  have hb : ¬((targetRole == some Role.radio) = true) := by
    simpa using h
  unfold _onClick
  rw [if_neg hb]

/-- Witness for C10: clicking a non-candidate target inside a concrete
group changes nothing and requests no focus. -/
theorem claim10_witness :
    _onClick [rDefault, rChecked] (some (Role.otherRole 0)) 1 =
      ([rDefault, rChecked], []) :=
  claim10_click_ignored [rDefault, rChecked] (some (Role.otherRole 0)) 1 (by decide)

end DashRadioGroup
